import Mathlib

/-!
# Filer server: master supervision, backend selection, token issuing

A shallow embedding of `weed/server/filer_server.go`.

* The master registry (`storage.MasterNodes`), the HTTP client (`util.Get`),
  the random source and the clock live outside this file of the repository.
  They are the fields of `Env`, acting on an arbitrary world state `W`, so
  every statement below holds for every behaviour of these collaborators.
* A Go `error` is an `Option String`: `none` is `nil`.
* Functions that call collaborators also return the calls they made, in
  order, so that statements about "which calls happen" can be made.
-/

namespace WeedServer

/-! ## Collaborators and recorded calls -/

/-- A call made by the supervisor goroutine, with what the call returned. -/
inductive Call where
  /-- The call `fs.masterNodes.Reset()`. -/
  | reset
  /-- The call `fs.masterNodes.FindMaster()` and its two results. -/
  | findMaster (master : String) (e : Option String)
  /-- The call `checkMaster(masterNode)` and its result. -/
  | checkMaster (masterNode : String) (e : Option String)
  /-- The call `fs.setMasterNode(masterNode)`. -/
  | setMasterNode (masterNode : String)
  deriving DecidableEq, Repr

/-- Whether a call is a call of `FindMaster`. -/
def Call.isFindMaster : Call → Bool
  | Call.findMaster _ _ => true
  | _ => false

/-- The collaborators of the supervisor goroutine, over a world state `W`
(registry contents, network, random source, clock). -/
structure Env (W : Type) where
  /-- The constructor `storage.NewMasterNodes(bootstrapNode)`. -/
  NewMasterNodes : String → W → W
  /-- The method `(*storage.MasterNodes).FindMaster`: candidate and error. -/
  FindMaster : W → (String × Option String) × W
  /-- The method `(*storage.MasterNodes).Reset`. -/
  Reset : W → W
  /-- The request `util.Get(url)`; only its error is used by the filer server. -/
  Get : String → W → Option String × W
  /-- The draw `rand.Float32()`. -/
  Float32 : W → ℚ × W
  /-- The pause `time.Sleep(d)`, `d` in nanoseconds. -/
  Sleep : Int → W → W

/-! ## `checkMaster` and `detectHealthyMaster` -/

/-- The function `checkMaster`: probe `http://<masterNode>/stats`, return the error. -/
def checkMaster {W : Type} (env : Env W) (masterNode : String) (w : W) : Option String × W :=
  let statUrl := "http://" ++ masterNode ++ "/stats"
  env.Get statUrl w

/-- What `detectHealthyMaster` returns (`master`, `e`), the world it leaves,
and the calls it made, oldest first. -/
structure Detect (W : Type) where
  master : String
  e : Option String
  world : W
  calls : List Call

/-- The loop `for i := 0; i <= 3; i++ { ... }` of `detectHealthyMaster`, with
`n = 4 - i` iterations left and the named results `master`, `e` as they
stand on entry. -/
def failover {W : Type} (env : Env W) : Nat → String → Option String → W → Detect W
  | 0, master, e, w => ⟨master, e, w, []⟩
  | n + 1, _, _, w =>
    let f := env.FindMaster w
    match f.1.2 with
    | some err =>
      -- `continue`
      let r := failover env n f.1.1 (some err) f.2
      { r with calls := Call.findMaster f.1.1 (some err) :: r.calls }
    | none =>
      let c := checkMaster env f.1.1 f.2
      match c.1 with
      | none =>
        -- `break`
        ⟨f.1.1, none, c.2, [Call.findMaster f.1.1 none, Call.checkMaster f.1.1 none]⟩
      | some err =>
        let r := failover env n f.1.1 (some err) c.2
        { r with calls :=
            Call.findMaster f.1.1 none :: Call.checkMaster f.1.1 (some err) :: r.calls }

/-- The method `detectHealthyMaster`. -/
def detectHealthyMaster {W : Type} (env : Env W) (masterNode : String) (w : W) : Detect W :=
  let c := checkMaster env masterNode w
  match c.1 with
  | some err =>
    let r := failover env 4 "" (some err) (env.Reset c.2)
    { r with calls := Call.checkMaster masterNode (some err) :: Call.reset :: r.calls }
  | none => ⟨masterNode, none, c.2, [Call.checkMaster masterNode none]⟩

/-! ## The server value and `NewFilerServer` -/

/-- The arguments of `security.NewGuard`; the guard itself lives in the
`security` package. -/
structure Guard where
  whiteList : List String
  rootWhiteList : List String
  secretKey : String
  deriving DecidableEq, Repr

/-- The function `security.NewGuard`. -/
def NewGuard (whiteList rootWhiteList : List String) (secretKey : String) : Guard :=
  ⟨whiteList, rootWhiteList, secretKey⟩

/-- The store handed to the flat-namespace filer. -/
inductive Store where
  /-- The result of `cassandra_store.NewCassandraStore(keyspace, hosts)`. -/
  | cassandra (keyspace hosts : String)
  /-- The result of `redis_store.NewRedisStore(hostPort, password, database)`. -/
  | redis (hostPort password : String) (database : Int)
  deriving DecidableEq, Repr

/-- The value of the field `filer filer.Filer`. -/
inductive Filer where
  /-- The result of `flat_namespace.NewFlatNamespaceFiler(master, store)`. -/
  | flatNamespace (master : String) (store : Store)
  /-- The result of `embedded_filer.NewFilerEmbedded(master, dir)`. -/
  | embedded (master dir : String)
  deriving DecidableEq, Repr

/-- The struct `FilerServer`. The registry `masterNodes` is part of the world
state of `Env`; `mnLock` guards `master` and has no sequential content. -/
structure FilerServer where
  port : String
  master : String
  collection : String
  defaultReplication : String
  redirectOnRead : Bool
  disableDirListing : Bool
  secret : String
  filer : Filer
  maxMB : Int
  get_guard : Guard
  head_guard : Guard
  delete_guard : Guard
  put_guard : Guard
  post_guard : Guard
  deriving DecidableEq, Repr

/-- The parameters of `NewFilerServer` other than the mux `r`. -/
structure Config where
  ip : String
  port : Int
  master : String
  dir : String
  collection : String
  replication : String
  redirectOnRead : Bool
  disableDirListing : Bool
  maxMB : Int
  secret : String
  cassandra_server : String
  cassandra_keyspace : String
  redis_server : String
  redis_password : String
  redis_database : Int
  get_ip_whitelist : List String
  head_ip_whitelist : List String
  delete_ip_whitelist : List String
  put_ip_whitelist : List String
  post_ip_whitelist : List String
  get_root_whitelist : List String
  head_root_whitelist : List String
  delete_root_whitelist : List String
  put_root_whitelist : List String
  post_root_whitelist : List String
  get_secure_key : String
  head_secure_key : String
  delete_secure_key : String
  put_secure_key : String
  post_secure_key : String
  deriving DecidableEq, Repr

/-- The two backend constructors that can fail; each returns its error
(`none` is `nil`). Both live outside this file of the repository. -/
structure Backends where
  /-- The error of `cassandra_store.NewCassandraStore(keyspace, hosts)`. -/
  NewCassandraStore : String → String → Option String
  /-- The error of `embedded_filer.NewFilerEmbedded(master, dir)`. -/
  NewFilerEmbedded : String → String → Option String

/-- A call of `glog.Fatalf`, which ends the process. -/
inductive Fatal where
  /-- "Can not connect to cassandra server %s with keyspace %s: %v". -/
  | cassandra (server keyspace err : String)
  /-- "Can not start filer in dir %s : %v". -/
  | embedded (dir err : String)
  deriving DecidableEq, Repr

/-- The struct literal at the top of `NewFilerServer`, together with the
later assignment of `fs.filer`. The literal has no `secret:` entry, so the
field keeps the zero value of its type. -/
def newServerValue (c : Config) (filer : Filer) : FilerServer :=
  { master := c.master
    collection := c.collection
    defaultReplication := c.replication
    redirectOnRead := c.redirectOnRead
    disableDirListing := c.disableDirListing
    maxMB := c.maxMB
    get_guard := NewGuard c.get_ip_whitelist c.get_root_whitelist c.get_secure_key
    head_guard := NewGuard c.head_ip_whitelist c.head_root_whitelist c.head_secure_key
    delete_guard := NewGuard c.delete_ip_whitelist c.delete_root_whitelist c.delete_secure_key
    put_guard := NewGuard c.put_ip_whitelist c.put_root_whitelist c.put_secure_key
    post_guard := NewGuard c.post_ip_whitelist c.post_root_whitelist c.post_secure_key
    port := c.ip ++ ":" ++ toString c.port
    secret := ""
    filer := filer }

/-- How a call of `NewFilerServer` ends. -/
inductive Outcome where
  /-- The statement `return fs, nil`. -/
  | returned (fs : FilerServer)
  /-- A call of `glog.Fatalf`: the process ends. -/
  | fatal (f : Fatal)
  /-- A call `r.HandleFunc(pattern, ...)` panicked; `fs` is the server value
  at that moment. -/
  | panicked (fs : FilerServer) (pattern : String)
  deriving DecidableEq, Repr

/-- The server value a call of `NewFilerServer` has built when it ends, if it
got that far. -/
def Outcome.server : Outcome → Option FilerServer
  | Outcome.returned fs => some fs
  | Outcome.fatal _ => none
  | Outcome.panicked fs _ => some fs

/-- The mux `r` when a call of `NewFilerServer` ends, and how the call ends.
The mux is the list of the patterns registered on it, oldest first. -/
structure Startup where
  mux : List String
  outcome : Outcome
  deriving DecidableEq, Repr

/-- The call `r.HandleFunc(pattern, handler)` of `http.ServeMux`: it panics
("multiple registrations") when the pattern is already registered, `none`,
and registers the pattern otherwise. -/
def HandleFunc (r : List String) (pattern : String) : Option (List String) :=
  if pattern ∈ r then none else some (r ++ [pattern])

/-- The calls `r.HandleFunc(p, ...)` for the given patterns, in order,
followed by `return fs, nil`. -/
def registerRoutes (fs : FilerServer) : List String → List String → Startup
  | r, [] => ⟨r, Outcome.returned fs⟩
  | r, p :: ps =>
    match HandleFunc r p with
    | none => ⟨r, Outcome.panicked fs p⟩
    | some r' => registerRoutes fs r' ps

/-- The function `NewFilerServer` up to the start of the goroutine. In the
embedded branch the patterns `/admin/mv` and `/admin/register` are
registered, and `/` is registered after the `if` statement in every
branch. -/
def NewFilerServer (b : Backends) (r : List String) (c : Config) : Startup :=
  if c.cassandra_server ≠ "" then
    match b.NewCassandraStore c.cassandra_keyspace c.cassandra_server with
    | some err =>
      ⟨r, Outcome.fatal (Fatal.cassandra c.cassandra_server c.cassandra_keyspace err)⟩
    | none =>
      let store := Store.cassandra c.cassandra_keyspace c.cassandra_server
      registerRoutes (newServerValue c (Filer.flatNamespace c.master store)) r ["/"]
  else if c.redis_server ≠ "" then
    let store := Store.redis c.redis_server c.redis_password c.redis_database
    registerRoutes (newServerValue c (Filer.flatNamespace c.master store)) r ["/"]
  else
    match b.NewFilerEmbedded c.master c.dir with
    | some err => ⟨r, Outcome.fatal (Fatal.embedded c.dir err)⟩
    | none =>
      registerRoutes (newServerValue c (Filer.embedded c.master c.dir)) r
        ["/admin/mv", "/admin/register", "/"]

/-- The method `jwt`; `GenJwt` is `security.GenJwt`, from the `security`
package. -/
def jwt {T : Type} (GenJwt : String → String → T) (fs : FilerServer) (fileId : String) : T :=
  GenJwt fs.secret fileId

/-- The method `getMasterNode`. -/
def getMasterNode (fs : FilerServer) : String :=
  fs.master

/-- The method `setMasterNode`. -/
def setMasterNode (fs : FilerServer) (masterNode : String) : FilerServer :=
  { fs with master := masterNode }

/-! ## Sleep durations

`float32` values are rationals; each `float32` operation is the exact
operation followed by IEEE-754 binary32 rounding. -/

/-- Round to the nearest integer, ties to the even one. -/
def roundHalfEven (x : ℚ) : ℤ :=
  let f := ⌊x⌋
  if x - f < 1 / 2 then f
  else if 1 / 2 < x - f then f + 1
  else if f % 2 = 0 then f else f + 1

/-- The binary exponent of the binade of `x`, not below the smallest normal
exponent of binary32. -/
def binade (x : ℚ) : ℤ :=
  max (Int.log 2 |x|) (-126)

/-- IEEE-754 binary32 rounding, to nearest with ties to even: 24 significant
bits, so the spacing in the binade `2^e ≤ |x| < 2^(e+1)` is `2^(e-23)`.
Overflow to infinity (magnitudes from `2^128`) is outside this model; no
value computed below exceeds `2^15`. -/
def f32Round (x : ℚ) : ℚ :=
  roundHalfEven (x / 2 ^ (binade x - 23)) * 2 ^ (binade x - 23)

/-- The `float32` sum. -/
def f32Add (a b : ℚ) : ℚ :=
  f32Round (a + b)

/-- The `float32` product. -/
def f32Mul (a b : ℚ) : ℚ :=
  f32Round (a * b)

/-- Conversion of a float to an integer: the fraction is discarded. -/
def truncate (x : ℚ) : ℤ :=
  if 0 ≤ x then ⌊x⌋ else ⌈x⌉

/-- Wrap-around of `int64`, the type under `time.Duration`. -/
def int64 (z : ℤ) : ℤ :=
  (z + 2 ^ 63) % 2 ^ 64 - 2 ^ 63

/-- The constant `time.Millisecond`, in nanoseconds. -/
def Millisecond : ℤ := 1000000

/-- The constant `time.Second`, in nanoseconds. -/
def Second : ℤ := 1000 * Millisecond

/-- The duration
`time.Duration(float32(10*1e3)*(1+rand.Float32())) * time.Millisecond`
for the draw `r`, in nanoseconds. -/
def connectedSleep (r : ℚ) : ℤ :=
  int64 (int64 (truncate (f32Mul 10000 (f32Add 1 r))) * Millisecond)

/-- The duration `time.Duration(float32(10*1e3)*0.25) * time.Millisecond`,
in nanoseconds. -/
def disconnectedSleep : ℤ :=
  int64 (int64 (truncate (f32Mul 10000 (1 / 4))) * Millisecond)

/-! ## The supervisor goroutine -/

/-- The state of the goroutine between two statements of its loops: the
server, the local `connected`, and the world. -/
structure Loop (W : Type) where
  fs : FilerServer
  connected : Bool
  world : W

/-- The bootstrap loop after at most `fuel` rounds: whether it reached
`break`, the state it is in, and the calls it made. -/
structure Boot (W : Type) where
  done : Bool
  state : Loop W
  calls : List Call

/-- The loop `for { _, err := fs.masterNodes.FindMaster(); ... }`, run for at
most `fuel` rounds. -/
def bootstrap {W : Type} (env : Env W) : Nat → Loop W → Boot W
  | 0, s => ⟨false, s, []⟩
  | n + 1, s =>
    let f := env.FindMaster s.world
    match f.1.2 with
    | some err =>
      let b := bootstrap env n { s with world := env.Sleep (3 * Second) f.2 }
      { b with calls := Call.findMaster f.1.1 (some err) :: b.calls }
    | none => ⟨true, { s with world := f.2 }, [Call.findMaster f.1.1 none]⟩

/-- The goroutine from its first statement to the end of the bootstrap loop. -/
def startSupervisor {W : Type} (env : Env W) (fs : FilerServer) (w : W) (fuel : Nat) : Boot W :=
  bootstrap env fuel ⟨fs, true, env.NewMasterNodes fs.master w⟩

/-- One pass through the body of the steady-state loop: the state after it,
what `detectHealthyMaster` returned, the calls made, and the time slept. -/
structure Iter (W : Type) where
  next : Loop W
  detected : Detect W
  calls : List Call
  slept : ℤ

/-- The `if err == nil { ... } else { ... }` statement of the loop body: the
server and `connected` after it, and the calls it made. -/
def install (fs : FilerServer) (connected : Bool) (master : String) (err : Option String) :
    (FilerServer × Bool) × List Call :=
  match err with
  | none =>
    if !connected then
      if getMasterNode fs ≠ master then
        ((setMasterNode fs master, true), [Call.setMasterNode master])
      else ((fs, true), [])
    else ((fs, connected), [])
  | some _ =>
    if connected then ((fs, false), []) else ((fs, connected), [])

/-- The body of the steady-state loop `for { ... }`. -/
def iteration {W : Type} (env : Env W) (s : Loop W) : Iter W :=
  let d := detectHealthyMaster env (getMasterNode s.fs) s.world
  let t := install s.fs s.connected d.master d.e
  if t.1.2 then
    let r := env.Float32 d.world
    ⟨⟨t.1.1, t.1.2, env.Sleep (connectedSleep r.1) r.2⟩, d, d.calls ++ t.2, connectedSleep r.1⟩
  else
    ⟨⟨t.1.1, t.1.2, env.Sleep disconnectedSleep d.world⟩, d, d.calls ++ t.2, disconnectedSleep⟩

/-- The state after `k` passes through the steady-state loop. -/
def iterations {W : Type} (env : Env W) : Nat → Loop W → Loop W
  | 0, s => s
  | k + 1, s => iterations env k (iteration env s).next

/-! ## Concrete configurations and environments

The world state of these environments is the number of `FindMaster` calls
made so far. -/

/-- A configuration with the embedded store and the seed master `m1:9333`. -/
def exampleConfig : Config :=
  { ip := "127.0.0.1", port := 8888, master := "m1:9333", dir := "/tmp/filer",
    collection := "", replication := "000", redirectOnRead := false,
    disableDirListing := false, maxMB := 0, secret := "s3cr3t",
    cassandra_server := "", cassandra_keyspace := "seaweed",
    redis_server := "", redis_password := "", redis_database := 0,
    get_ip_whitelist := [], head_ip_whitelist := [], delete_ip_whitelist := [],
    put_ip_whitelist := [], post_ip_whitelist := [],
    get_root_whitelist := [], head_root_whitelist := [], delete_root_whitelist := [],
    put_root_whitelist := [], post_root_whitelist := [],
    get_secure_key := "", head_secure_key := "", delete_secure_key := "",
    put_secure_key := "", post_secure_key := "" }

/-- The configuration `exampleConfig` with an empty seed master. -/
def emptySeedConfig : Config :=
  { exampleConfig with master := "" }

/-- The configuration `exampleConfig` with the parameters of both networked
stores present. -/
def bothStoresConfig : Config :=
  { exampleConfig with cassandra_server := "cassandra1:9042", redis_server := "redis1:6379" }

/-- Backend constructors that succeed. -/
def okBackends : Backends :=
  { NewCassandraStore := fun _ _ => none
    NewFilerEmbedded := fun _ _ => none }

/-- Backend constructors that fail. -/
def failingBackends : Backends :=
  { NewCassandraStore := fun _ _ => some "no hosts available"
    NewFilerEmbedded := fun _ _ => some "permission denied" }

/-- The server `NewFilerServer` builds from `exampleConfig`. -/
def exampleServer : FilerServer :=
  newServerValue exampleConfig (Filer.embedded "m1:9333" "/tmp/filer")

/-- Only `m2:9333` answers its probe; the registry hands out `m1:9333` on the
first call and `m2:9333` afterwards. -/
def failoverEnv : Env Nat :=
  { NewMasterNodes := fun _ _ => 0
    FindMaster := fun n => ((if n = 0 then "m1:9333" else "m2:9333", none), n + 1)
    Reset := fun n => n
    Get := fun url n =>
      (if url = "http://m2:9333/stats" then none else some "connection refused", n)
    Float32 := fun n => (1 / 2, n)
    Sleep := fun _ n => n }

/-- No master answers its probe; the registry keeps handing out `m2:9333`. -/
def downEnv : Env Nat :=
  { NewMasterNodes := fun _ _ => 0
    FindMaster := fun n => (("m2:9333", none), n + 1)
    Reset := fun n => n
    Get := fun _ n => (some "connection refused", n)
    Float32 := fun n => (1 / 2, n)
    Sleep := fun _ n => n }

/-- The registry succeeds on its first call, fails on the next four, and then
hands out the empty address, whose probe is taken to succeed. -/
def emptyCandidateEnv : Env Nat :=
  { NewMasterNodes := fun _ _ => 0
    FindMaster := fun n =>
      ((if n = 0 then "m1:9333" else "",
        if 1 ≤ n ∧ n ≤ 4 then some "No master node available!" else none), n + 1)
    Reset := fun n => n
    Get := fun url n =>
      (if url = "http:///stats" then none else some "connection refused", n)
    Float32 := fun n => (1 / 2, n)
    Sleep := fun _ n => n }

/-! ## Lemmas on the failover loop -/

section FailoverLemmas

variable {W : Type} (env : Env W)

theorem failover_no_reset (n : Nat) (m : String) (e : Option String) (w : W) :
    Call.reset ∉ (failover env n m e w).calls := by
  induction n generalizing m e w with
  | zero => simp [failover]
  | succ n ih =>
    simp only [failover]
    split
    · simpa using ih _ _ _
    · split
      · simp
      · simpa using ih _ _ _

theorem failover_no_set (n : Nat) (m : String) (e : Option String) (w : W) (a : String) :
    Call.setMasterNode a ∉ (failover env n m e w).calls := by
  induction n generalizing m e w with
  | zero => simp [failover]
  | succ n ih =>
    simp only [failover]
    split
    · simpa using ih _ _ _
    · split
      · simp
      · simpa using ih _ _ _

theorem failover_count_le (n : Nat) (m : String) (e : Option String) (w : W) :
    (failover env n m e w).calls.countP Call.isFindMaster ≤ n := by
  induction n generalizing m e w with
  | zero => simp [failover]
  | succ n ih =>
    simp only [failover]
    split
    · have := ih (env.FindMaster w).1.1 (some ‹String›) (env.FindMaster w).2
      simpa [Call.isFindMaster] using this
    · split
      · simp [Call.isFindMaster]
      · have := ih (env.FindMaster w).1.1 (some ‹String›)
          (checkMaster env (env.FindMaster w).1.1 (env.FindMaster w).2).2
        simpa [Call.isFindMaster] using this

theorem failover_probes_candidate (n : Nat) (m : String) (e : Option String) (w : W)
    (pre post : List Call) (a : String)
    (h : (failover env n m e w).calls = pre ++ Call.findMaster a none :: post) :
    ∃ r post', post = Call.checkMaster a r :: post' := by
  induction n generalizing m e w pre with
  | zero => simp [failover] at h
  | succ n ih =>
    simp only [failover] at h
    split at h
    · rcases pre with _ | ⟨x, pre'⟩
      · simp at h
      · simp only [List.cons_append, List.cons.injEq] at h
        exact ih _ _ _ _ h.2
    · split at h
      · rcases pre with _ | ⟨x, pre'⟩
        · simp only [List.nil_append, List.cons.injEq, Call.findMaster.injEq] at h
          exact ⟨none, [], by rw [← h.2, h.1.1]⟩
        · rcases pre' with _ | ⟨y, pre''⟩
          · simp at h
          · simp at h
      · rcases pre with _ | ⟨x, pre'⟩
        · simp only [List.nil_append, List.cons.injEq, Call.findMaster.injEq] at h
          exact ⟨_, _, by rw [← h.2, h.1.1]⟩
        · rcases pre' with _ | ⟨y, pre''⟩
          · simp at h
          · simp only [List.cons_append, List.cons.injEq] at h
            exact ih _ _ _ _ h.2.2

theorem failover_stops (n : Nat) (m : String) (e : Option String) (w : W)
    (pre post : List Call) (a : String)
    (h : (failover env n m e w).calls = pre ++ Call.checkMaster a none :: post) :
    post = [] ∧ (failover env n m e w).master = a ∧ (failover env n m e w).e = none := by
  induction n generalizing m e w pre with
  | zero => simp [failover] at h
  | succ n ih =>
    cases hf : (env.FindMaster w).1.2 with
    | some err =>
      simp only [failover, hf] at h ⊢
      rcases pre with _ | ⟨x, pre'⟩
      · simp at h
      · simp only [List.cons_append, List.cons.injEq] at h
        exact ih _ _ _ _ h.2
    | none =>
      cases hc : (checkMaster env (env.FindMaster w).1.1 (env.FindMaster w).2).1 with
      | none =>
        simp only [failover, hf, hc] at h ⊢
        rcases pre with _ | ⟨x, pre'⟩
        · simp at h
        · rcases pre' with _ | ⟨y, pre''⟩
          · simp only [List.cons_append, List.nil_append, List.cons.injEq,
              Call.checkMaster.injEq] at h
            exact ⟨h.2.2.symm, h.2.1.1, trivial⟩
          · simp at h
      | some err =>
        simp only [failover, hf, hc] at h ⊢
        rcases pre with _ | ⟨x, pre'⟩
        · simp at h
        · rcases pre' with _ | ⟨y, pre''⟩
          · simp at h
          · simp only [List.cons_append, List.cons.injEq] at h
            exact ih _ _ _ _ h.2.2

theorem failover_all_fail (n : Nat) (m : String) (e : Option String) (w : W)
    (he : e ≠ none) (h : ∀ a, Call.checkMaster a none ∉ (failover env n m e w).calls) :
    (failover env n m e w).e ≠ none ∧
      (failover env n m e w).calls.countP Call.isFindMaster = n := by
  induction n generalizing m e w with
  | zero => simpa [failover] using he
  | succ n ih =>
    simp only [failover] at h ⊢
    split
    · rename_i err heq
      simp only [heq] at h
      have := ih (env.FindMaster w).1.1 (some err) (env.FindMaster w).2 (by simp)
        (fun a ha => h a (by simp [ha]))
      simpa [Call.isFindMaster] using this
    · rename_i heq
      simp only [heq] at h
      split
      · rename_i hc
        simp only [hc] at h
        exact absurd (by simp) (h (env.FindMaster w).1.1)
      · rename_i err hc
        simp only [hc] at h
        have := ih (env.FindMaster w).1.1 (some err)
          (checkMaster env (env.FindMaster w).1.1 (env.FindMaster w).2).2 (by simp)
          (fun a ha => h a (by simp [ha]))
        simpa [Call.isFindMaster] using this

theorem failover_success (n : Nat) (m : String) (e : Option String) (w : W)
    (he : e ≠ none) (h : (failover env n m e w).e = none) :
    Call.checkMaster (failover env n m e w).master none ∈ (failover env n m e w).calls ∧
      ∃ w', (checkMaster env (failover env n m e w).master w').1 = none := by
  induction n generalizing m e w with
  | zero => simp [failover] at h; exact absurd h he
  | succ n ih =>
    simp only [failover] at h ⊢
    split
    · rename_i err heq
      simp only [heq] at h
      have := ih (env.FindMaster w).1.1 (some err) (env.FindMaster w).2 (by simp) h
      exact ⟨by simp [this.1], this.2⟩
    · rename_i heq
      simp only [heq] at h
      split
      · rename_i hc
        exact ⟨by simp, _, hc⟩
      · rename_i err hc
        simp only [hc] at h
        have := ih (env.FindMaster w).1.1 (some err)
          (checkMaster env (env.FindMaster w).1.1 (env.FindMaster w).2).2 (by simp) h
        exact ⟨by simp [this.1], this.2⟩

end FailoverLemmas

/-! ## `detectHealthyMaster` -/

section Detect

variable {W : Type} (env : Env W)

theorem detectHealthyMaster_of_probe_ok (masterNode : String) (w : W)
    (h : (checkMaster env masterNode w).1 = none) :
    detectHealthyMaster env masterNode w =
      ⟨masterNode, none, (checkMaster env masterNode w).2, [Call.checkMaster masterNode none]⟩ := by
  simp only [detectHealthyMaster, h]

theorem detectHealthyMaster_of_probe_fails (masterNode : String) (w : W) (err : String)
    (h : (checkMaster env masterNode w).1 = some err) :
    detectHealthyMaster env masterNode w =
      { failover env 4 "" (some err) (env.Reset (checkMaster env masterNode w).2) with
        calls := Call.checkMaster masterNode (some err) :: Call.reset ::
          (failover env 4 "" (some err) (env.Reset (checkMaster env masterNode w).2)).calls } := by
  simp only [detectHealthyMaster, h]

/-- C5: when the probe of `masterNode` fails, `detectHealthyMaster` calls
`Reset` exactly once, right after that probe and before any `FindMaster`; it
then makes at most 4 `FindMaster` calls; every candidate returned without
error is probed next; a successful probe is the last call and its candidate
is returned with a nil error; when no probe succeeds, all 4 `FindMaster`
calls are made and the error is non-nil; a nil error comes only with an
address whose probe succeeded during the call. -/
theorem detectHealthyMaster_failover_protocol (masterNode : String) (w : W) (err : String)
    (hprobe : (checkMaster env masterNode w).1 = some err) :
    ∃ rest : List Call,
      (detectHealthyMaster env masterNode w).calls =
        Call.checkMaster masterNode (some err) :: Call.reset :: rest ∧
      Call.reset ∉ rest ∧
      rest.countP Call.isFindMaster ≤ 4 ∧
      (∀ pre post a, rest = pre ++ Call.findMaster a none :: post →
        ∃ r post', post = Call.checkMaster a r :: post') ∧
      (∀ pre post a, rest = pre ++ Call.checkMaster a none :: post →
        post = [] ∧ (detectHealthyMaster env masterNode w).master = a ∧
          (detectHealthyMaster env masterNode w).e = none) ∧
      ((∀ a, Call.checkMaster a none ∉ rest) →
        (detectHealthyMaster env masterNode w).e ≠ none ∧
          rest.countP Call.isFindMaster = 4) ∧
      ((detectHealthyMaster env masterNode w).e = none →
        Call.checkMaster (detectHealthyMaster env masterNode w).master none ∈ rest ∧
          ∃ w', (checkMaster env (detectHealthyMaster env masterNode w).master w').1 = none) := by
  rw [detectHealthyMaster_of_probe_fails env masterNode w err hprobe]
  refine ⟨_, rfl, failover_no_reset env _ _ _ _, failover_count_le env _ _ _ _, ?_, ?_, ?_, ?_⟩
  · intro pre post a h
    exact failover_probes_candidate env _ _ _ _ pre post a h
  · intro pre post a h
    exact failover_stops env _ _ _ _ pre post a h
  · intro h
    exact failover_all_fail env _ _ _ _ (by simp) h
  · intro h
    exact failover_success env _ _ _ _ (by simp) h

end Detect

section Iteration

variable {W : Type} (env : Env W)

theorem iteration_detected (s : Loop W) :
    (iteration env s).detected = detectHealthyMaster env (getMasterNode s.fs) s.world := by
  simp only [iteration]
  split <;> rfl

theorem iteration_fs (s : Loop W) :
    (iteration env s).next.fs =
      (install s.fs s.connected (detectHealthyMaster env (getMasterNode s.fs) s.world).master
        (detectHealthyMaster env (getMasterNode s.fs) s.world).e).1.1 := by
  simp only [iteration]
  split <;> rfl

theorem iteration_connected (s : Loop W) :
    (iteration env s).next.connected =
      (install s.fs s.connected (detectHealthyMaster env (getMasterNode s.fs) s.world).master
        (detectHealthyMaster env (getMasterNode s.fs) s.world).e).1.2 := by
  simp only [iteration]
  split <;> rfl

theorem iteration_calls (s : Loop W) :
    (iteration env s).calls =
      (detectHealthyMaster env (getMasterNode s.fs) s.world).calls ++
      (install s.fs s.connected (detectHealthyMaster env (getMasterNode s.fs) s.world).master
        (detectHealthyMaster env (getMasterNode s.fs) s.world).e).2 := by
  simp only [iteration]
  split <;> rfl

theorem iteration_slept (s : Loop W) :
    (iteration env s).slept =
      if (iteration env s).next.connected then
        connectedSleep (env.Float32 (iteration env s).detected.world).1
      else disconnectedSleep := by
  cases h : (install s.fs s.connected (detectHealthyMaster env (getMasterNode s.fs) s.world).master
      (detectHealthyMaster env (getMasterNode s.fs) s.world).e).1.2 <;>
    simp [iteration, h]

theorem detectHealthyMaster_no_set (masterNode : String) (w : W) (a : String) :
    Call.setMasterNode a ∉ (detectHealthyMaster env masterNode w).calls := by
  simp only [detectHealthyMaster]
  split
  · simpa using failover_no_set env _ _ _ _ a
  · simp

theorem detectHealthyMaster_nil_probed (masterNode : String) (w : W)
    (h : (detectHealthyMaster env masterNode w).e = none) :
    ∃ w', (checkMaster env (detectHealthyMaster env masterNode w).master w').1 = none := by
  cases hc : (checkMaster env masterNode w).1 with
  | none =>
    rw [detectHealthyMaster_of_probe_ok env masterNode w hc]
    exact ⟨w, hc⟩
  | some err =>
    rw [detectHealthyMaster_of_probe_fails env masterNode w err hc] at h ⊢
    exact (failover_success env _ _ _ _ (by simp) h).2

theorem bootstrap_fs (n : Nat) (s : Loop W) : (bootstrap env n s).state.fs = s.fs := by
  induction n generalizing s with
  | zero => rfl
  | succ n ih =>
    simp only [bootstrap]
    split
    · exact ih _
    · rfl

theorem bootstrap_no_set (n : Nat) (s : Loop W) (a : String) :
    Call.setMasterNode a ∉ (bootstrap env n s).calls := by
  induction n generalizing s with
  | zero => simp [bootstrap]
  | succ n ih =>
    simp only [bootstrap]
    split
    · simpa using ih _
    · simp

/-- C2: when the probe of the installed address succeeds, `detectHealthyMaster`
returns that address with a nil error after that one probe, with no `Reset`
and no `FindMaster` call, and the iteration leaves the server, hence the
installed address, as it was, whatever `connected` was at its start. -/
theorem healthy_probe_keeps_master (fs : FilerServer) (connected : Bool) (w : W)
    (h : (checkMaster env (getMasterNode fs) w).1 = none) :
    (detectHealthyMaster env (getMasterNode fs) w).master = getMasterNode fs ∧
    (detectHealthyMaster env (getMasterNode fs) w).e = none ∧
    (detectHealthyMaster env (getMasterNode fs) w).calls =
      [Call.checkMaster (getMasterNode fs) none] ∧
    (iteration env ⟨fs, connected, w⟩).detected = detectHealthyMaster env (getMasterNode fs) w ∧
    (iteration env ⟨fs, connected, w⟩).calls = [Call.checkMaster (getMasterNode fs) none] ∧
    getMasterNode (iteration env ⟨fs, connected, w⟩).next.fs = getMasterNode fs ∧
    (iteration env ⟨fs, connected, w⟩).next.fs = fs := by
  have hd := detectHealthyMaster_of_probe_ok env (getMasterNode fs) w h
  have hfs : (iteration env ⟨fs, connected, w⟩).next.fs = fs := by
    rw [iteration_fs]
    simp only [hd, install]
    cases connected <;> simp
  refine ⟨by rw [hd], by rw [hd], by rw [hd], iteration_detected env _, ?_, by rw [hfs], hfs⟩
  rw [iteration_calls]
  simp only [hd, install]
  cases connected <;> simp

/-- C3: when the probe of the installed address fails and no probe made by
`detectHealthyMaster` succeeds, all 4 `FindMaster` calls are made, the error
is non-nil, `setMasterNode` is not called, the server is as it was (whatever
candidate comes back with the error), and `connected` is false afterwards. -/
theorem all_attempts_fail_keeps_master (fs : FilerServer) (connected : Bool) (w : W)
    (hprobe : (checkMaster env (getMasterNode fs) w).1 ≠ none)
    (hall : ∀ a, Call.checkMaster a none ∉ (detectHealthyMaster env (getMasterNode fs) w).calls) :
    (detectHealthyMaster env (getMasterNode fs) w).e ≠ none ∧
    (detectHealthyMaster env (getMasterNode fs) w).calls.countP Call.isFindMaster = 4 ∧
    (∀ a, Call.setMasterNode a ∉ (iteration env ⟨fs, connected, w⟩).calls) ∧
    (iteration env ⟨fs, connected, w⟩).next.fs = fs ∧
    getMasterNode (iteration env ⟨fs, connected, w⟩).next.fs = getMasterNode fs ∧
    (iteration env ⟨fs, connected, w⟩).next.connected = false := by
  obtain ⟨err, herr⟩ := Option.ne_none_iff_exists'.1 hprobe
  have hd := detectHealthyMaster_of_probe_fails env (getMasterNode fs) w err herr
  have hrest : ∀ a, Call.checkMaster a none ∉
      (failover env 4 "" (some err) (env.Reset (checkMaster env (getMasterNode fs) w).2)).calls := by
    intro a ha
    apply hall a
    rw [hd]
    simp [ha]
  have hf := failover_all_fail env 4 "" (some err) _ (by simp) hrest
  have he : (detectHealthyMaster env (getMasterNode fs) w).e ≠ none := by
    rw [hd]; exact hf.1
  obtain ⟨e', he'⟩ := Option.ne_none_iff_exists'.1 he
  have hfs : (iteration env ⟨fs, connected, w⟩).next.fs = fs := by
    rw [iteration_fs]
    simp only [he', install]
    cases connected <;> simp
  refine ⟨he, ?_, ?_, hfs, by rw [hfs], ?_⟩
  · rw [hd]
    simpa [Call.isFindMaster] using hf.2
  · intro a ha
    rw [iteration_calls] at ha
    simp only [he', install] at ha
    rcases List.mem_append.1 ha with h1 | h1
    · exact detectHealthyMaster_no_set env _ _ a h1
    · cases connected <;> simp at h1
  · rw [iteration_connected]
    simp only [he', install]
    cases connected <;> simp

end Iteration

section Supervisor

variable {W : Type} (env : Env W)

theorem install_fs_of_connected (fs : FilerServer) (master : String) (err : Option String) :
    (install fs true master err).1.1 = fs := by
  cases err <;> simp [install]

theorem install_calls (fs : FilerServer) (connected : Bool) (master : String)
    (err : Option String) (a : String) (h : Call.setMasterNode a ∈ (install fs connected master err).2) :
    connected = false ∧ err = none ∧ a = master ∧ master ≠ getMasterNode fs := by
  cases err with
  | some e => cases connected <;> simp [install] at h
  | none =>
    cases connected with
    | true => simp [install] at h
    | false =>
      by_cases hm : getMasterNode fs = master
      · simp [install, hm] at h
      · simp [install, hm] at h
        exact ⟨rfl, rfl, h, fun h' => hm h'.symm⟩

theorem install_fs_cases (fs : FilerServer) (connected : Bool) (master : String)
    (err : Option String) :
    (install fs connected master err).1.1 = fs ∨
      ((install fs connected master err).1.1 = setMasterNode fs master ∧ err = none ∧
        Call.setMasterNode master ∈ (install fs connected master err).2) := by
  cases err with
  | some e => cases connected <;> simp [install]
  | none =>
    cases connected with
    | true => simp [install]
    | false =>
      by_cases hm : getMasterNode fs = master
      · simp [install, hm]
      · simp [install, hm]

/-- C10: in an iteration of the steady-state loop, `setMasterNode` is called
only when `connected` was false at its start, `detectHealthyMaster` returned
a nil error, and the returned address differs from the installed one; the
server changes only through such a call; an iteration that starts with
`connected` true leaves the server, hence the installed address, as it was;
and the bootstrap loop, for any number of rounds, makes no `setMasterNode`
call and leaves the server as it was. -/
theorem setMasterNode_only_on_reconnect (fs : FilerServer) (connected : Bool) (w : W) :
    (∀ a, Call.setMasterNode a ∈ (iteration env ⟨fs, connected, w⟩).calls →
      connected = false ∧
      (detectHealthyMaster env (getMasterNode fs) w).e = none ∧
      a = (detectHealthyMaster env (getMasterNode fs) w).master ∧
      (detectHealthyMaster env (getMasterNode fs) w).master ≠ getMasterNode fs) ∧
    ((iteration env ⟨fs, connected, w⟩).next.fs ≠ fs →
      ∃ a, Call.setMasterNode a ∈ (iteration env ⟨fs, connected, w⟩).calls) ∧
    (connected = true →
      (iteration env ⟨fs, connected, w⟩).next.fs = fs ∧
      getMasterNode (iteration env ⟨fs, connected, w⟩).next.fs = getMasterNode fs) ∧
    (∀ fuel : Nat,
      (startSupervisor env fs w fuel).state.fs = fs ∧
      getMasterNode (startSupervisor env fs w fuel).state.fs = getMasterNode fs ∧
      ∀ a, Call.setMasterNode a ∉ (startSupervisor env fs w fuel).calls) := by
  refine ⟨?_, ?_, ?_, ?_⟩
  · intro a ha
    rw [iteration_calls] at ha
    rcases List.mem_append.1 ha with h | h
    · exact absurd h (detectHealthyMaster_no_set env _ _ a)
    · exact install_calls _ _ _ _ a h
  · intro hne
    rw [iteration_fs] at hne
    rcases install_fs_cases fs connected (detectHealthyMaster env (getMasterNode fs) w).master
      (detectHealthyMaster env (getMasterNode fs) w).e with h | h
    · exact absurd h hne
    · exact ⟨_, by rw [iteration_calls]; exact List.mem_append_right _ h.2.2⟩
  · intro hc
    subst hc
    have : (iteration env ⟨fs, true, w⟩).next.fs = fs := by
      rw [iteration_fs]; exact install_fs_of_connected _ _ _
    exact ⟨this, by rw [this]⟩
  · intro fuel
    have : (startSupervisor env fs w fuel).state.fs = fs := bootstrap_fs env fuel _
    exact ⟨this, by rw [this], fun a => bootstrap_no_set env fuel _ a⟩

theorem iteration_master_ne_empty (s : Loop W)
    (hempty : ∀ w, (checkMaster env "" w).1 ≠ none) (h : getMasterNode s.fs ≠ "") :
    getMasterNode (iteration env s).next.fs ≠ "" := by
  rw [iteration_fs]
  rcases install_fs_cases s.fs s.connected (detectHealthyMaster env (getMasterNode s.fs) s.world).master
    (detectHealthyMaster env (getMasterNode s.fs) s.world).e with h1 | h1
  · rw [h1]; exact h
  · rw [h1.1]
    obtain ⟨w', hw'⟩ := detectHealthyMaster_nil_probed env _ _ h1.2.1
    intro hm
    have hm' : (detectHealthyMaster env (getMasterNode s.fs) s.world).master = "" := hm
    rw [hm'] at hw'
    exact hempty w' hw'

theorem iterations_master_ne_empty (k : Nat) (s : Loop W)
    (hempty : ∀ w, (checkMaster env "" w).1 ≠ none) (h : getMasterNode s.fs ≠ "") :
    getMasterNode (iterations env k s).fs ≠ "" := by
  induction k generalizing s with
  | zero => exact h
  | succ k ih => exact ih _ (iteration_master_ne_empty env s hempty h)

/-- C4 (amended): when the seed address is non-empty and the probe of the
empty address never succeeds, then once the bootstrap loop has ended the
installed address is non-empty, at that point and after every number of
iterations of the steady-state loop. -/
theorem master_never_empty (fs : FilerServer) (w : W) (fuel : Nat)
    (hseed : getMasterNode fs ≠ "")
    (hempty : ∀ w', (checkMaster env "" w').1 ≠ none)
    (_hdone : (startSupervisor env fs w fuel).done = true) :
    ∀ k : Nat, getMasterNode (iterations env k (startSupervisor env fs w fuel).state).fs ≠ "" := by
  intro k
  apply iterations_master_ne_empty env k _ hempty
  have : (startSupervisor env fs w fuel).state.fs = fs := bootstrap_fs env fuel _
  rw [this]
  exact hseed

end Supervisor

/-! ## The statements at concrete inputs -/

/-- Witness of C5: with `failoverEnv` the probe of `m1:9333` fails, and the
statement of C5 holds for `detectHealthyMaster` on `m1:9333`. -/
theorem detectHealthyMaster_failover_protocol_witness :
    (checkMaster failoverEnv "m1:9333" 0).1 = some "connection refused" ∧
    ∃ rest : List Call,
      (detectHealthyMaster failoverEnv "m1:9333" 0).calls =
        Call.checkMaster "m1:9333" (some "connection refused") :: Call.reset :: rest ∧
      Call.reset ∉ rest ∧
      rest.countP Call.isFindMaster ≤ 4 ∧
      (∀ pre post a, rest = pre ++ Call.findMaster a none :: post →
        ∃ r post', post = Call.checkMaster a r :: post') ∧
      (∀ pre post a, rest = pre ++ Call.checkMaster a none :: post →
        post = [] ∧ (detectHealthyMaster failoverEnv "m1:9333" 0).master = a ∧
          (detectHealthyMaster failoverEnv "m1:9333" 0).e = none) ∧
      ((∀ a, Call.checkMaster a none ∉ rest) →
        (detectHealthyMaster failoverEnv "m1:9333" 0).e ≠ none ∧
          rest.countP Call.isFindMaster = 4) ∧
      ((detectHealthyMaster failoverEnv "m1:9333" 0).e = none →
        Call.checkMaster (detectHealthyMaster failoverEnv "m1:9333" 0).master none ∈ rest ∧
          ∃ w', (checkMaster failoverEnv
            (detectHealthyMaster failoverEnv "m1:9333" 0).master w').1 = none) :=
  ⟨by decide,
    detectHealthyMaster_failover_protocol failoverEnv "m1:9333" 0 "connection refused" (by decide)⟩

/-- Witness of C2: with `failoverEnv` the probe of the installed `m2:9333`
succeeds, here in an iteration that starts with `connected` false. -/
theorem healthy_probe_keeps_master_witness :
    (checkMaster failoverEnv (getMasterNode (setMasterNode exampleServer "m2:9333")) 3).1 = none ∧
    (detectHealthyMaster failoverEnv "m2:9333" 3).master = "m2:9333" ∧
    (detectHealthyMaster failoverEnv "m2:9333" 3).e = none ∧
    (detectHealthyMaster failoverEnv "m2:9333" 3).calls = [Call.checkMaster "m2:9333" none] ∧
    (iteration failoverEnv ⟨setMasterNode exampleServer "m2:9333", false, 3⟩).detected =
      detectHealthyMaster failoverEnv "m2:9333" 3 ∧
    (iteration failoverEnv ⟨setMasterNode exampleServer "m2:9333", false, 3⟩).calls =
      [Call.checkMaster "m2:9333" none] ∧
    getMasterNode (iteration failoverEnv ⟨setMasterNode exampleServer "m2:9333", false, 3⟩).next.fs =
      "m2:9333" ∧
    (iteration failoverEnv ⟨setMasterNode exampleServer "m2:9333", false, 3⟩).next.fs =
      setMasterNode exampleServer "m2:9333" :=
  ⟨by decide,
    healthy_probe_keeps_master failoverEnv (setMasterNode exampleServer "m2:9333") false 3
      (by decide)⟩

theorem downEnv_calls :
    (detectHealthyMaster downEnv (getMasterNode exampleServer) 0).calls =
      [Call.checkMaster "m1:9333" (some "connection refused"), Call.reset,
        Call.findMaster "m2:9333" none, Call.checkMaster "m2:9333" (some "connection refused"),
        Call.findMaster "m2:9333" none, Call.checkMaster "m2:9333" (some "connection refused"),
        Call.findMaster "m2:9333" none, Call.checkMaster "m2:9333" (some "connection refused"),
        Call.findMaster "m2:9333" none, Call.checkMaster "m2:9333" (some "connection refused")] := by
  decide

/-- Witness of C3: with `downEnv` every probe fails while `FindMaster` keeps
returning the candidate `m2:9333`, which comes back together with the error. -/
theorem all_attempts_fail_keeps_master_witness :
    (checkMaster downEnv (getMasterNode exampleServer) 0).1 ≠ none ∧
    (∀ a, Call.checkMaster a none ∉
      (detectHealthyMaster downEnv (getMasterNode exampleServer) 0).calls) ∧
    (detectHealthyMaster downEnv (getMasterNode exampleServer) 0).master = "m2:9333" ∧
    (detectHealthyMaster downEnv (getMasterNode exampleServer) 0).e ≠ none ∧
    (detectHealthyMaster downEnv (getMasterNode exampleServer) 0).calls.countP
      Call.isFindMaster = 4 ∧
    (∀ a, Call.setMasterNode a ∉ (iteration downEnv ⟨exampleServer, true, 0⟩).calls) ∧
    (iteration downEnv ⟨exampleServer, true, 0⟩).next.fs = exampleServer ∧
    getMasterNode (iteration downEnv ⟨exampleServer, true, 0⟩).next.fs =
      getMasterNode exampleServer ∧
    (iteration downEnv ⟨exampleServer, true, 0⟩).next.connected = false :=
  have hall : ∀ a, Call.checkMaster a none ∉
      (detectHealthyMaster downEnv (getMasterNode exampleServer) 0).calls := by
    intro a
    rw [downEnv_calls]
    simp
  ⟨by decide, hall, by decide,
    all_attempts_fail_keeps_master downEnv exampleServer true 0 (by decide) hall⟩

theorem failoverEnv_empty_probe (w : Nat) : (checkMaster failoverEnv "" w).1 ≠ none := by
  simp [checkMaster, failoverEnv]

/-- Witness of C4 (amended): the seed `m1:9333` with `failoverEnv`, whose probe
of the empty address fails and whose bootstrap ends in one round. -/
theorem master_never_empty_witness :
    getMasterNode exampleServer ≠ "" ∧
    (∀ w', (checkMaster failoverEnv "" w').1 ≠ none) ∧
    (startSupervisor failoverEnv exampleServer 0 1).done = true ∧
    ∀ k : Nat,
      getMasterNode (iterations failoverEnv k
        (startSupervisor failoverEnv exampleServer 0 1).state).fs ≠ "" :=
  ⟨by decide, failoverEnv_empty_probe, by decide,
    master_never_empty failoverEnv exampleServer 0 1 (by decide) failoverEnv_empty_probe
      (by decide)⟩

/-- C4 (as stated) fails. With the empty seed address the bootstrap loop ends
and the installed address is empty; and with the seed `m1:9333`, a registry
that hands out the empty address and a probe of it that succeeds, the
installed address is empty after two iterations. -/
theorem master_empty_after_bootstrap :
    (∃ fs mux,
      NewFilerServer okBackends [] emptySeedConfig = ⟨mux, Outcome.returned fs⟩ ∧
      (startSupervisor failoverEnv fs 0 1).done = true ∧
      getMasterNode (iterations failoverEnv 0 (startSupervisor failoverEnv fs 0 1).state).fs = "") ∧
    (getMasterNode exampleServer = "m1:9333" ∧
      (startSupervisor emptyCandidateEnv exampleServer 0 1).done = true ∧
      getMasterNode (iterations emptyCandidateEnv 2
        (startSupervisor emptyCandidateEnv exampleServer 0 1).state).fs = "") :=
  ⟨⟨newServerValue emptySeedConfig (Filer.embedded "" "/tmp/filer"),
    ["/admin/mv", "/admin/register", "/"], by rfl, by decide, by decide⟩,
    by decide, by decide, by decide⟩

theorem failoverEnv_detect_from_m1 (n : Nat) :
    (detectHealthyMaster failoverEnv "m1:9333" n).e = none ∧
    (detectHealthyMaster failoverEnv "m1:9333" n).master = "m2:9333" := by
  by_cases h : n = 0
  · subst h; decide
  · simp [detectHealthyMaster, failover, checkMaster, failoverEnv, h]

theorem failoverEnv_stuck (k : Nat) (w : Nat) :
    (iterations failoverEnv k ⟨exampleServer, true, w⟩).fs = exampleServer := by
  induction k generalizing w with
  | zero => rfl
  | succ k ih =>
    have hd := failoverEnv_detect_from_m1 w
    have hfs : (iteration failoverEnv ⟨exampleServer, true, w⟩).next.fs = exampleServer := by
      rw [iteration_fs]; exact install_fs_of_connected _ _ _
    have hc : (iteration failoverEnv ⟨exampleServer, true, w⟩).next.connected = true := by
      rw [iteration_connected]
      have : getMasterNode exampleServer = "m1:9333" := by decide
      simp only [this, hd.1, install]
      simp
    simp only [iterations]
    rcases hn : (iteration failoverEnv ⟨exampleServer, true, w⟩).next with ⟨f, c, w'⟩
    rw [hn] at hfs hc
    simp only at hfs hc
    rw [hfs, hc]
    exact ih _

/-- C1 (the code at the failing input): the server built from `exampleConfig`
finishes its bootstrap with `connected` true and `m1:9333` installed; in the
first iteration the probe of `m1:9333` fails, `FindMaster` returns `m2:9333`,
whose probe succeeds, and `detectHealthyMaster` returns `m2:9333` with a nil
error; yet the installed address after that iteration, and after any number
of iterations, is still `m1:9333`. -/
theorem failover_while_connected_not_installed :
    NewFilerServer okBackends [] exampleConfig =
      ⟨["/admin/mv", "/admin/register", "/"], Outcome.returned exampleServer⟩ ∧
    (startSupervisor failoverEnv exampleServer 0 1).done = true ∧
    (startSupervisor failoverEnv exampleServer 0 1).state.connected = true ∧
    getMasterNode (startSupervisor failoverEnv exampleServer 0 1).state.fs = "m1:9333" ∧
    (iteration failoverEnv (startSupervisor failoverEnv exampleServer 0 1).state).calls =
      [Call.checkMaster "m1:9333" (some "connection refused"), Call.reset,
        Call.findMaster "m2:9333" none, Call.checkMaster "m2:9333" none] ∧
    (iteration failoverEnv (startSupervisor failoverEnv exampleServer 0 1).state).detected.master =
      "m2:9333" ∧
    (iteration failoverEnv (startSupervisor failoverEnv exampleServer 0 1).state).detected.e =
      none ∧
    getMasterNode
      (iteration failoverEnv (startSupervisor failoverEnv exampleServer 0 1).state).next.fs =
      "m1:9333" ∧
    ∀ k : Nat,
      getMasterNode (iterations failoverEnv k
        (startSupervisor failoverEnv exampleServer 0 1).state).fs = "m1:9333" := by
  refine ⟨rfl, by decide, by decide, by decide, by decide, by decide, by decide, by decide, ?_⟩
  intro k
  have hs : (startSupervisor failoverEnv exampleServer 0 1).state = ⟨exampleServer, true, 1⟩ := by
    rfl
  rw [hs, failoverEnv_stuck k 1]
  decide

/-! ## Backend selection, routes, tokens -/

theorem registerRoutes_server (fs : FilerServer) (r ps : List String) :
    (registerRoutes fs r ps).outcome.server = some fs := by
  induction ps generalizing r with
  | nil => rfl
  | cons p ps ih =>
    simp only [registerRoutes, HandleFunc]
    by_cases hp : p ∈ r
    · simp [hp, Outcome.server]
    · simp only [hp, if_false]
      exact ih _

theorem registerRoutes_fresh (fs : FilerServer) (r ps : List String)
    (h : ∀ p ∈ ps, p ∉ r) (hn : ps.Nodup) :
    registerRoutes fs r ps = ⟨r ++ ps, Outcome.returned fs⟩ := by
  induction ps generalizing r with
  | nil => simp [registerRoutes]
  | cons p ps ih =>
    have hp : p ∉ r := h p (List.mem_cons_self _ _)
    simp only [registerRoutes, HandleFunc, hp, if_false]
    rw [ih (r ++ [p])]
    · simp
    · intro q hq hmem
      rcases List.mem_append.1 hmem with h1 | h1
      · exact h q (List.mem_cons_of_mem _ hq) h1
      · have hqp : q = p := by simpa using h1
        exact (List.nodup_cons.1 hn).1 (hqp ▸ hq)
    · exact (List.nodup_cons.1 hn).2

theorem newFilerServer_secret (b : Backends) (r : List String) (c : Config) (fs : FilerServer)
    (h : (NewFilerServer b r c).outcome.server = some fs) : fs.secret = "" := by
  unfold NewFilerServer at h
  split at h
  · split at h
    · simp [Outcome.server] at h
    · rw [registerRoutes_server] at h
      cases h; rfl
  · split at h
    · rw [registerRoutes_server] at h
      cases h; rfl
    · split at h
      · simp [Outcome.server] at h
      · rw [registerRoutes_server] at h
        cases h; rfl

/-- C7: when backend construction does not fail, then for every mux the
server that `NewFilerServer` builds has as its one `filer` the flat-namespace
filer over the Cassandra store exactly when `cassandra_server` is non-empty,
the flat-namespace filer over the Redis store exactly when
`cassandra_server` is empty and `redis_server` is non-empty, and the embedded
filer on `dir` exactly when both are empty; and `NewFilerServer` returns that
server when none of the patterns it registers is on the mux already. -/
theorem backend_precedence (b : Backends) (r : List String) (c : Config)
    (hA : c.cassandra_server ≠ "" →
      b.NewCassandraStore c.cassandra_keyspace c.cassandra_server = none)
    (hE : c.cassandra_server = "" → c.redis_server = "" →
      b.NewFilerEmbedded c.master c.dir = none) :
    ∃ fs, (NewFilerServer b r c).outcome.server = some fs ∧
      ((∀ p ∈ (if c.cassandra_server = "" ∧ c.redis_server = "" then
          ["/admin/mv", "/admin/register", "/"] else ["/"]), p ∉ r) →
        (NewFilerServer b r c).outcome = Outcome.returned fs) ∧
      (fs.filer = Filer.flatNamespace c.master
          (Store.cassandra c.cassandra_keyspace c.cassandra_server) ↔
        c.cassandra_server ≠ "") ∧
      (fs.filer = Filer.flatNamespace c.master
          (Store.redis c.redis_server c.redis_password c.redis_database) ↔
        c.cassandra_server = "" ∧ c.redis_server ≠ "") ∧
      (fs.filer = Filer.embedded c.master c.dir ↔
        c.cassandra_server = "" ∧ c.redis_server = "") := by
  by_cases h1 : c.cassandra_server = ""
  · by_cases h2 : c.redis_server = ""
    · refine ⟨newServerValue c (Filer.embedded c.master c.dir), ?_, ?_, ?_⟩
      · simp only [NewFilerServer, h1, h2, hE h1 h2, ne_eq, not_true_eq_false, if_false]
        exact registerRoutes_server _ _ _
      · intro hr
        simp only [h1, h2, and_self, if_true] at hr
        simp only [NewFilerServer, h1, h2, hE h1 h2, ne_eq, not_true_eq_false, if_false]
        rw [registerRoutes_fresh _ _ _ hr (by decide)]
      · simp [newServerValue, h1, h2]
    · refine ⟨newServerValue c (Filer.flatNamespace c.master
        (Store.redis c.redis_server c.redis_password c.redis_database)), ?_, ?_, ?_⟩
      · simp only [NewFilerServer, h1, h2, ne_eq, not_true_eq_false, not_false_eq_true,
          if_false, if_true]
        exact registerRoutes_server _ _ _
      · intro hr
        simp only [h1, h2, and_false, if_false] at hr
        simp only [NewFilerServer, h1, h2, ne_eq, not_true_eq_false, not_false_eq_true,
          if_false, if_true]
        rw [registerRoutes_fresh _ _ _ hr (by decide)]
      · simp [newServerValue, h1, h2]
  · refine ⟨newServerValue c (Filer.flatNamespace c.master
      (Store.cassandra c.cassandra_keyspace c.cassandra_server)), ?_, ?_, ?_⟩
    · simp only [NewFilerServer, h1, hA h1, ne_eq, not_false_eq_true, if_true]
      exact registerRoutes_server _ _ _
    · intro hr
      simp only [h1, false_and, if_false] at hr
      simp only [NewFilerServer, h1, hA h1, ne_eq, not_false_eq_true, if_true]
      rw [registerRoutes_fresh _ _ _ hr (by decide)]
    · simp [newServerValue, h1]

/-- Witness of C7: with the parameters of both networked stores present and
constructors that succeed, the Cassandra store is the backend. -/
theorem backend_precedence_witness :
    (bothStoresConfig.cassandra_server ≠ "" →
      okBackends.NewCassandraStore bothStoresConfig.cassandra_keyspace
        bothStoresConfig.cassandra_server = none) ∧
    (bothStoresConfig.cassandra_server = "" → bothStoresConfig.redis_server = "" →
      okBackends.NewFilerEmbedded bothStoresConfig.master bothStoresConfig.dir = none) ∧
    bothStoresConfig.cassandra_server ≠ "" ∧ bothStoresConfig.redis_server ≠ "" ∧
    ∃ fs, (NewFilerServer okBackends [] bothStoresConfig).outcome.server = some fs ∧
      ((∀ p ∈ (if bothStoresConfig.cassandra_server = "" ∧ bothStoresConfig.redis_server = ""
          then ["/admin/mv", "/admin/register", "/"] else ["/"]), p ∉ ([] : List String)) →
        (NewFilerServer okBackends [] bothStoresConfig).outcome = Outcome.returned fs) ∧
      (fs.filer = Filer.flatNamespace bothStoresConfig.master
          (Store.cassandra bothStoresConfig.cassandra_keyspace
            bothStoresConfig.cassandra_server) ↔
        bothStoresConfig.cassandra_server ≠ "") ∧
      (fs.filer = Filer.flatNamespace bothStoresConfig.master
          (Store.redis bothStoresConfig.redis_server bothStoresConfig.redis_password
            bothStoresConfig.redis_database) ↔
        bothStoresConfig.cassandra_server = "" ∧ bothStoresConfig.redis_server ≠ "") ∧
      (fs.filer = Filer.embedded bothStoresConfig.master bothStoresConfig.dir ↔
        bothStoresConfig.cassandra_server = "" ∧ bothStoresConfig.redis_server = "") :=
  ⟨fun _ => rfl, fun _ _ => rfl, by decide, by decide,
    backend_precedence okBackends [] bothStoresConfig (fun _ => rfl) (fun _ _ => rfl)⟩

/-- C8 (as stated) fails. With both server strings empty and an embedded
store that cannot be constructed, `glog.Fatalf` ends the call before any
`HandleFunc`, so no pattern is registered; likewise with a Cassandra store
that cannot be constructed, `/` is not registered; and on a mux that already
holds `/admin/mv` the first `HandleFunc` panics, so `/admin/register` and `/`
are not registered. -/
theorem routes_not_registered :
    (exampleConfig.cassandra_server = "" ∧ exampleConfig.redis_server = "" ∧
      NewFilerServer failingBackends [] exampleConfig =
        ⟨[], Outcome.fatal (Fatal.embedded "/tmp/filer" "permission denied")⟩ ∧
      (NewFilerServer failingBackends [] exampleConfig).mux ≠
        [] ++ ["/admin/mv", "/admin/register", "/"]) ∧
    (bothStoresConfig.cassandra_server ≠ "" ∧
      NewFilerServer failingBackends [] bothStoresConfig =
        ⟨[], Outcome.fatal (Fatal.cassandra "cassandra1:9042" "seaweed" "no hosts available")⟩ ∧
      (NewFilerServer failingBackends [] bothStoresConfig).mux ≠ [] ++ ["/"]) ∧
    (NewFilerServer okBackends ["/admin/mv"] exampleConfig =
        ⟨["/admin/mv"], Outcome.panicked exampleServer "/admin/mv"⟩ ∧
      (NewFilerServer okBackends ["/admin/mv"] exampleConfig).mux ≠
        ["/admin/mv"] ++ ["/admin/mv", "/admin/register", "/"] ∧
      "/" ∉ (NewFilerServer okBackends ["/admin/mv"] exampleConfig).mux) := by
  decide

/-- C8 (amended): when backend construction does not fail and none of the
patterns to be registered is on the mux `r` already, `NewFilerServer`
returns, and the patterns it has registered on `r` are `/admin/mv`,
`/admin/register`, `/` when `cassandra_server` and `redis_server` are both
empty, and `/` alone otherwise; so the two administrative patterns are
registered exactly when the embedded filer is the backend. -/
theorem routes_registered (b : Backends) (r : List String) (c : Config)
    (hA : c.cassandra_server ≠ "" →
      b.NewCassandraStore c.cassandra_keyspace c.cassandra_server = none)
    (hE : c.cassandra_server = "" → c.redis_server = "" →
      b.NewFilerEmbedded c.master c.dir = none)
    (hr : ∀ p ∈ (if c.cassandra_server = "" ∧ c.redis_server = "" then
      ["/admin/mv", "/admin/register", "/"] else ["/"]), p ∉ r) :
    ∃ fs routes, NewFilerServer b r c = ⟨r ++ routes, Outcome.returned fs⟩ ∧
      routes = (if c.cassandra_server = "" ∧ c.redis_server = "" then
        ["/admin/mv", "/admin/register", "/"] else ["/"]) ∧
      (("/admin/mv" ∈ routes ∧ "/admin/register" ∈ routes) ↔
        fs.filer = Filer.embedded c.master c.dir) ∧
      (("/admin/mv" ∈ routes ∨ "/admin/register" ∈ routes) ↔
        fs.filer = Filer.embedded c.master c.dir) := by
  by_cases h1 : c.cassandra_server = ""
  · by_cases h2 : c.redis_server = ""
    · simp only [h1, h2, and_self, if_true] at hr
      refine ⟨newServerValue c (Filer.embedded c.master c.dir),
        ["/admin/mv", "/admin/register", "/"], ?_, ?_⟩
      · simp only [NewFilerServer, h1, h2, hE h1 h2, ne_eq, not_true_eq_false, if_false]
        rw [registerRoutes_fresh _ _ _ hr (by decide)]
      · simp [newServerValue, h1, h2]
    · simp only [h1, h2, and_false, if_false] at hr
      refine ⟨newServerValue c (Filer.flatNamespace c.master
        (Store.redis c.redis_server c.redis_password c.redis_database)), ["/"], ?_, ?_⟩
      · simp only [NewFilerServer, h1, h2, ne_eq, not_true_eq_false, not_false_eq_true,
          if_false, if_true]
        rw [registerRoutes_fresh _ _ _ hr (by decide)]
      · simp [newServerValue, h1, h2]
  · simp only [h1, false_and, if_false] at hr
    refine ⟨newServerValue c (Filer.flatNamespace c.master
      (Store.cassandra c.cassandra_keyspace c.cassandra_server)), ["/"], ?_, ?_⟩
    · simp only [NewFilerServer, h1, hA h1, ne_eq, not_false_eq_true, if_true]
      rw [registerRoutes_fresh _ _ _ hr (by decide)]
    · simp [newServerValue, h1]

/-- Witness of C8 (amended): `exampleConfig`, with constructors that succeed,
on a mux that already holds one other pattern. -/
theorem routes_registered_witness :
    (exampleConfig.cassandra_server ≠ "" →
      okBackends.NewCassandraStore exampleConfig.cassandra_keyspace
        exampleConfig.cassandra_server = none) ∧
    (exampleConfig.cassandra_server = "" → exampleConfig.redis_server = "" →
      okBackends.NewFilerEmbedded exampleConfig.master exampleConfig.dir = none) ∧
    (∀ p ∈ (if exampleConfig.cassandra_server = "" ∧ exampleConfig.redis_server = "" then
      ["/admin/mv", "/admin/register", "/"] else ["/"]), p ∉ ["/debug"]) ∧
    ∃ fs routes, NewFilerServer okBackends ["/debug"] exampleConfig =
        ⟨["/debug"] ++ routes, Outcome.returned fs⟩ ∧
      routes = (if exampleConfig.cassandra_server = "" ∧ exampleConfig.redis_server = "" then
        ["/admin/mv", "/admin/register", "/"] else ["/"]) ∧
      (("/admin/mv" ∈ routes ∧ "/admin/register" ∈ routes) ↔
        fs.filer = Filer.embedded exampleConfig.master exampleConfig.dir) ∧
      (("/admin/mv" ∈ routes ∨ "/admin/register" ∈ routes) ↔
        fs.filer = Filer.embedded exampleConfig.master exampleConfig.dir) :=
  ⟨fun _ => rfl, fun _ _ => rfl, by decide,
    routes_registered okBackends ["/debug"] exampleConfig (fun _ => rfl) (fun _ _ => rfl)
      (by decide)⟩

/-- C9 (the code at the failing input): `NewFilerServer` called with the
secret `s3cr3t` returns a server whose `secret` field is empty, as does every
call of `NewFilerServer` that returns; so `jwt` signs with the empty secret,
and for a signer that tells the two secrets apart the token differs from the
one signed with `s3cr3t`. -/
theorem jwt_signs_with_empty_secret :
    exampleConfig.secret = "s3cr3t" ∧
    NewFilerServer okBackends [] exampleConfig =
      ⟨["/admin/mv", "/admin/register", "/"], Outcome.returned exampleServer⟩ ∧
    exampleServer.secret = "" ∧
    (∀ (b : Backends) (r : List String) (c : Config) (fs : FilerServer) (mux : List String),
      NewFilerServer b r c = ⟨mux, Outcome.returned fs⟩ →
      ∀ (T : Type) (GenJwt : String → String → T) (fileId : String),
        jwt GenJwt fs fileId = GenJwt "" fileId) ∧
    (∀ (T : Type) (GenJwt : String → String → T),
      GenJwt "" "3,01637037d6" ≠ GenJwt "s3cr3t" "3,01637037d6" →
      jwt GenJwt exampleServer "3,01637037d6" ≠ GenJwt "s3cr3t" "3,01637037d6") ∧
    jwt (fun secret fileId => (secret, fileId)) exampleServer "3,01637037d6" ≠
      ("s3cr3t", "3,01637037d6") := by
  refine ⟨rfl, by decide, rfl, ?_, ?_, by decide⟩
  · intro b r c fs mux h T GenJwt fileId
    have hs : (NewFilerServer b r c).outcome.server = some fs := by rw [h]; rfl
    simp only [jwt, newFilerServer_secret b r c fs hs]
  · intro T GenJwt h
    exact h

/-! ## Sleep durations -/

theorem roundHalfEven_cases (x : ℚ) :
    roundHalfEven x = ⌊x⌋ ∨ (roundHalfEven x = ⌊x⌋ + 1 ∧ 1 / 2 ≤ x - ⌊x⌋) := by
  unfold roundHalfEven
  simp only
  split_ifs with h1 h2 h3
  · exact Or.inl rfl
  · exact Or.inr ⟨rfl, le_of_lt h2⟩
  · exact Or.inl rfl
  · exact Or.inr ⟨rfl, not_lt.1 h1⟩

theorem le_roundHalfEven (x : ℚ) (a : ℤ) (h : (a : ℚ) ≤ x) : a ≤ roundHalfEven x := by
  have hf : a ≤ ⌊x⌋ := Int.le_floor.2 h
  rcases roundHalfEven_cases x with h1 | ⟨h1, _⟩ <;> omega

theorem roundHalfEven_le (x : ℚ) (b : ℤ) (h : x ≤ (b : ℚ)) : roundHalfEven x ≤ b := by
  have hfl : (⌊x⌋ : ℚ) ≤ x := Int.floor_le x
  rcases roundHalfEven_cases x with h1 | ⟨h1, h2⟩
  · rw [h1]
    exact_mod_cast hfl.trans h
  · rw [h1]
    have : (⌊x⌋ : ℚ) < (b : ℚ) := by linarith
    have : ⌊x⌋ < b := by exact_mod_cast this
    omega

theorem roundHalfEven_le_pred (x : ℚ) (b : ℤ) (h : x < (b : ℚ) - 1 / 2) :
    roundHalfEven x ≤ b - 1 := by
  have hfl : (⌊x⌋ : ℚ) ≤ x := Int.floor_le x
  rcases roundHalfEven_cases x with h1 | ⟨h1, h2⟩
  · rw [h1]
    have : (⌊x⌋ : ℚ) < (b : ℚ) := by linarith
    have : ⌊x⌋ < b := by exact_mod_cast this
    omega
  · rw [h1]
    have : (⌊x⌋ : ℚ) + 1 < (b : ℚ) := by linarith
    have : ⌊x⌋ + 1 < b := by exact_mod_cast this
    omega

theorem roundHalfEven_intCast (n : ℤ) : roundHalfEven (n : ℚ) = n := by
  unfold roundHalfEven
  simp

theorem roundHalfEven_tie_odd (n : ℤ) (hn : n % 2 = 1) :
    roundHalfEven ((n : ℚ) + 1 / 2) = n + 1 := by
  have hf : ⌊(n : ℚ) + 1 / 2⌋ = n := by
    rw [Int.floor_eq_iff]
    constructor <;> linarith
  unfold roundHalfEven
  simp only [hf]
  have h1 : ¬ ((n : ℚ) + 1 / 2 - (n : ℚ) < 1 / 2) := by simp
  have h2 : ¬ ((1 : ℚ) / 2 < (n : ℚ) + 1 / 2 - (n : ℚ)) := by simp
  have h3 : ¬ (n % 2 = 0) := by omega
  rw [if_neg h1, if_neg h2, if_neg h3]

theorem binade_eq (x : ℚ) (e : ℤ) (he : -126 ≤ e) (h1 : (2 : ℚ) ^ e ≤ x)
    (h2 : x < (2 : ℚ) ^ (e + 1)) : binade x = e := by
  have hpos : (0 : ℚ) < x := lt_of_lt_of_le (zpow_pos (by norm_num) e) h1
  have hle : e ≤ Int.log 2 x :=
    (Int.zpow_le_iff_le_log (b := 2) (by norm_num) hpos).1 (by exact_mod_cast h1)
  have hlt : Int.log 2 x < e + 1 :=
    (Int.lt_zpow_iff_log_lt (b := 2) (by norm_num) hpos).1 (by exact_mod_cast h2)
  unfold binade
  rw [abs_of_pos hpos]
  omega

theorem f32Round_eq (x : ℚ) (e : ℤ) (he : -126 ≤ e) (h1 : (2 : ℚ) ^ e ≤ x)
    (h2 : x < (2 : ℚ) ^ (e + 1)) :
    f32Round x = roundHalfEven (x / 2 ^ (e - 23)) * 2 ^ (e - 23) := by
  unfold f32Round
  rw [binade_eq x e he h1 h2]

/-- The sum `1 + r` in `float32`, for `0 ≤ r < 1`. -/
theorem f32Add_one_eq (r : ℚ) (h0 : 0 ≤ r) (h1 : r < 1) :
    f32Add 1 r = roundHalfEven ((1 + r) * 8388608) / 8388608 := by
  unfold f32Add
  rw [f32Round_eq (1 + r) 0 (by norm_num) (by norm_num; linarith) (by norm_num; linarith)]
  norm_num
  ring_nf

/-- The product `10000 * y` in `float32`, below `2^14`. -/
theorem f32Mul_low_eq (y : ℚ) (h0 : 8192 ≤ 10000 * y) (h1 : 10000 * y < 16384) :
    f32Mul 10000 y = roundHalfEven (10000 * y * 1024) / 1024 := by
  unfold f32Mul
  rw [f32Round_eq (10000 * y) 13 (by norm_num) (by norm_num; linarith) (by norm_num; linarith)]
  norm_num
  ring_nf

/-- The product `10000 * y` in `float32`, from `2^14` and below `2^15`. -/
theorem f32Mul_high_eq (y : ℚ) (h0 : 16384 ≤ 10000 * y) (h1 : 10000 * y < 32768) :
    f32Mul 10000 y = roundHalfEven (10000 * y * 512) / 512 := by
  unfold f32Mul
  rw [f32Round_eq (10000 * y) 14 (by norm_num) (by norm_num; linarith) (by norm_num; linarith)]
  norm_num
  ring_nf

theorem f32Add_one_bounds (r : ℚ) (h0 : 0 ≤ r) (h1 : r < 1) :
    1 ≤ f32Add 1 r ∧ f32Add 1 r ≤ 2 ∧
    (r < 16777215 / 16777216 → f32Add 1 r ≤ 16777215 / 8388608) := by
  rw [f32Add_one_eq r h0 h1]
  have ha : (8388608 : ℤ) ≤ roundHalfEven ((1 + r) * 8388608) :=
    le_roundHalfEven _ _ (by push_cast; linarith)
  have hb : roundHalfEven ((1 + r) * 8388608) ≤ (16777216 : ℤ) :=
    roundHalfEven_le _ _ (by push_cast; linarith)
  have ha' : (8388608 : ℚ) ≤ (roundHalfEven ((1 + r) * 8388608) : ℚ) := by exact_mod_cast ha
  have hb' : (roundHalfEven ((1 + r) * 8388608) : ℚ) ≤ 16777216 := by exact_mod_cast hb
  refine ⟨?_, ?_, ?_⟩
  · rw [le_div_iff₀ (by norm_num)]; linarith
  · rw [div_le_iff₀ (by norm_num)]; linarith
  · intro hr
    have hc : roundHalfEven ((1 + r) * 8388608) ≤ (16777216 : ℤ) - 1 :=
      roundHalfEven_le_pred _ _ (by push_cast; linarith)
    have hc' : (roundHalfEven ((1 + r) * 8388608) : ℚ) ≤ 16777215 := by exact_mod_cast hc
    rw [div_le_iff₀ (by norm_num)]
    linarith

theorem f32Mul_bounds (y : ℚ) (h0 : 1 ≤ y) (h1 : y ≤ 2) :
    10000 ≤ f32Mul 10000 y ∧ f32Mul 10000 y ≤ 20000 ∧
    (y ≤ 16777215 / 8388608 → f32Mul 10000 y ≤ 10239999 / 512) := by
  by_cases hlow : 10000 * y < 16384
  · rw [f32Mul_low_eq y (by linarith) hlow]
    have ha : (10240000 : ℤ) ≤ roundHalfEven (10000 * y * 1024) :=
      le_roundHalfEven _ _ (by push_cast; linarith)
    have hb : roundHalfEven (10000 * y * 1024) ≤ (16777216 : ℤ) :=
      roundHalfEven_le _ _ (by push_cast; linarith)
    have ha' : (10240000 : ℚ) ≤ (roundHalfEven (10000 * y * 1024) : ℚ) := by exact_mod_cast ha
    have hb' : (roundHalfEven (10000 * y * 1024) : ℚ) ≤ 16777216 := by exact_mod_cast hb
    refine ⟨?_, ?_, ?_⟩
    · rw [le_div_iff₀ (by norm_num)]; linarith
    · rw [div_le_iff₀ (by norm_num)]; linarith
    · intro _
      rw [div_le_iff₀ (by norm_num)]
      linarith
  · rw [f32Mul_high_eq y (by linarith) (by linarith)]
    have ha : (10240000 : ℤ) ≤ roundHalfEven (10000 * y * 512) + 1851392 := by
      have := le_roundHalfEven (10000 * y * 512) 8388608 (by push_cast; linarith)
      omega
    have hb : roundHalfEven (10000 * y * 512) ≤ (10240000 : ℤ) :=
      roundHalfEven_le _ _ (by push_cast; linarith)
    have hc : (8388608 : ℤ) ≤ roundHalfEven (10000 * y * 512) :=
      le_roundHalfEven (10000 * y * 512) 8388608 (by push_cast; linarith)
    have hb' : (roundHalfEven (10000 * y * 512) : ℚ) ≤ 10240000 := by exact_mod_cast hb
    have hc' : (8388608 : ℚ) ≤ (roundHalfEven (10000 * y * 512) : ℚ) := by exact_mod_cast hc
    refine ⟨?_, ?_, ?_⟩
    · rw [le_div_iff₀ (by norm_num)]; linarith
    · rw [div_le_iff₀ (by norm_num)]; linarith
    · intro hy
      have hd : roundHalfEven (10000 * y * 512) ≤ (10240000 : ℤ) - 1 :=
        roundHalfEven_le_pred _ _ (by push_cast; linarith)
      have hd' : (roundHalfEven (10000 * y * 512) : ℚ) ≤ 10239999 := by exact_mod_cast hd
      rw [div_le_iff₀ (by norm_num)]
      linarith

theorem int64_of_small (z : ℤ) (h0 : 0 ≤ z) (h1 : z ≤ 20000000000) : int64 z = z := by
  unfold int64
  omega

theorem connectedSleep_eq (r : ℚ) (h0 : 0 ≤ r) (h1 : r < 1) :
    connectedSleep r = ⌊f32Mul 10000 (f32Add 1 r)⌋ * 1000000 ∧
    10000 ≤ ⌊f32Mul 10000 (f32Add 1 r)⌋ ∧ ⌊f32Mul 10000 (f32Add 1 r)⌋ ≤ 20000 := by
  have hadd := f32Add_one_bounds r h0 h1
  have hmul := f32Mul_bounds (f32Add 1 r) hadd.1 hadd.2.1
  have hlo : (10000 : ℤ) ≤ ⌊f32Mul 10000 (f32Add 1 r)⌋ :=
    Int.le_floor.2 (by push_cast; exact hmul.1)
  have hhi : ⌊f32Mul 10000 (f32Add 1 r)⌋ ≤ (20000 : ℤ) := by
    have : (⌊f32Mul 10000 (f32Add 1 r)⌋ : ℚ) ≤ ((20000 : ℤ) : ℚ) := by
      push_cast
      exact (Int.floor_le _).trans hmul.2.1
    exact_mod_cast this
  have htr : truncate (f32Mul 10000 (f32Add 1 r)) = ⌊f32Mul 10000 (f32Add 1 r)⌋ := by
    unfold truncate
    rw [if_pos (by linarith [hmul.1])]
  refine ⟨?_, hlo, hhi⟩
  have h64 : int64 ⌊f32Mul 10000 (f32Add 1 r)⌋ = ⌊f32Mul 10000 (f32Add 1 r)⌋ :=
    int64_of_small _ (by omega) (by omega)
  unfold connectedSleep
  rw [htr, h64, Millisecond]
  exact int64_of_small _ (by omega) (by omega)

theorem disconnectedSleep_eq : disconnectedSleep = 2500 * Millisecond := by
  have h : f32Mul 10000 (1 / 4) = 2500 := by
    unfold f32Mul
    rw [f32Round_eq (10000 * (1 / 4)) 11 (by norm_num) (by norm_num) (by norm_num)]
    have : (10000 * (1 / 4) / 2 ^ ((11 : ℤ) - 23) : ℚ) = ((10240000 : ℤ) : ℚ) := by norm_num
    rw [this, roundHalfEven_intCast]
    norm_num
  have ht : truncate (2500 : ℚ) = 2500 := by
    unfold truncate
    rw [if_pos (by norm_num)]
    exact_mod_cast Int.floor_intCast (2500 : ℤ)
  have h64 : int64 2500 = 2500 := int64_of_small 2500 (by norm_num) (by norm_num)
  unfold disconnectedSleep
  rw [h, ht, h64, Millisecond]
  exact int64_of_small (2500 * 1000000) (by norm_num) (by norm_num)

theorem f32Add_max_draw : f32Add 1 (16777215 / 16777216) = 2 := by
  rw [f32Add_one_eq _ (by norm_num) (by norm_num)]
  have : ((1 + 16777215 / 16777216) * 8388608 : ℚ) = ((16777215 : ℤ) : ℚ) + 1 / 2 := by
    norm_num
  rw [this, roundHalfEven_tie_odd _ (by norm_num)]
  norm_num

theorem f32Mul_two : f32Mul 10000 2 = 20000 := by
  rw [f32Mul_high_eq 2 (by norm_num) (by norm_num)]
  have : (10000 * 2 * 512 : ℚ) = ((10240000 : ℤ) : ℚ) := by norm_num
  rw [this, roundHalfEven_intCast]
  norm_num

theorem f32Round_max_draw : f32Round (16777215 / 16777216) = 16777215 / 16777216 := by
  rw [f32Round_eq _ (-1) (by norm_num) (by norm_num) (by norm_num)]
  have : (16777215 / 16777216 / 2 ^ ((-1 : ℤ) - 23) : ℚ) = ((16777215 : ℤ) : ℚ) := by norm_num
  rw [this, roundHalfEven_intCast]
  norm_num

/-- C6 (as stated) fails. The draw `1 - 2^-24`, the largest `float32` below
1, is at least 0 and below 1, yet `1 + r` rounds to 2 in `float32` and the
sleep is exactly 20 s, not less. -/
theorem connectedSleep_max_draw :
    (0 : ℚ) ≤ 16777215 / 16777216 ∧ (16777215 / 16777216 : ℚ) < 1 ∧
    f32Round (16777215 / 16777216) = 16777215 / 16777216 ∧
    connectedSleep (16777215 / 16777216) = 20 * Second ∧
    ¬ connectedSleep (16777215 / 16777216) < 20 * Second := by
  have h : connectedSleep (16777215 / 16777216) = 20 * Second := by
    rw [(connectedSleep_eq _ (by norm_num) (by norm_num)).1, f32Add_max_draw, f32Mul_two]
    have : ⌊(20000 : ℚ)⌋ = 20000 := by exact_mod_cast Int.floor_intCast (20000 : ℤ)
    rw [this]
    norm_num [Second, Millisecond]
  refine ⟨by norm_num, by norm_num, f32Round_max_draw, h, ?_⟩
  rw [h]
  exact lt_irrefl _

/-- C6 (amended): the sleep at the end of an iteration is `connectedSleep` of
the draw when `connected` is true after the iteration and
`disconnectedSleep` otherwise; for every draw `0 ≤ r < 1` the former is at
least 10 s and at most 20 s, and less than 20 s when `r < 1 - 2^-24`; the
latter is exactly 2.5 s. -/
theorem sleep_bounds {W : Type} (env : Env W) (s : Loop W) (r : ℚ) (h0 : 0 ≤ r) (h1 : r < 1) :
    ((iteration env s).slept =
      if (iteration env s).next.connected then
        connectedSleep (env.Float32 (iteration env s).detected.world).1
      else disconnectedSleep) ∧
    10 * Second ≤ connectedSleep r ∧
    connectedSleep r ≤ 20 * Second ∧
    (r < 16777215 / 16777216 → connectedSleep r < 20 * Second) ∧
    disconnectedSleep = 2500 * Millisecond := by
  have hc := connectedSleep_eq r h0 h1
  refine ⟨iteration_slept env s, ?_, ?_, ?_, disconnectedSleep_eq⟩
  · rw [hc.1, Second, Millisecond]; omega
  · rw [hc.1, Second, Millisecond]; omega
  · intro hr
    have hadd := f32Add_one_bounds r h0 h1
    have hmul := f32Mul_bounds (f32Add 1 r) hadd.1 hadd.2.1
    have hlt : f32Mul 10000 (f32Add 1 r) < ((20000 : ℤ) : ℚ) := by
      have := hmul.2.2 (hadd.2.2 hr)
      push_cast
      linarith
    have : ⌊f32Mul 10000 (f32Add 1 r)⌋ < 20000 := Int.floor_lt.2 hlt
    rw [hc.1, Second, Millisecond]
    omega

/-- Witness of C6 (amended): the draw `1/2`. -/
theorem sleep_bounds_witness :
    (0 : ℚ) ≤ 1 / 2 ∧ (1 / 2 : ℚ) < 1 ∧
    ((iteration failoverEnv ⟨exampleServer, true, 1⟩).slept =
      if (iteration failoverEnv ⟨exampleServer, true, 1⟩).next.connected then
        connectedSleep
          (failoverEnv.Float32 (iteration failoverEnv ⟨exampleServer, true, 1⟩).detected.world).1
      else disconnectedSleep) ∧
    10 * Second ≤ connectedSleep (1 / 2) ∧
    connectedSleep (1 / 2) ≤ 20 * Second ∧
    ((1 / 2 : ℚ) < 16777215 / 16777216 → connectedSleep (1 / 2) < 20 * Second) ∧
    disconnectedSleep = 2500 * Millisecond :=
  ⟨by norm_num, by norm_num,
    sleep_bounds failoverEnv ⟨exampleServer, true, 1⟩ (1 / 2) (by norm_num) (by norm_num)⟩

end WeedServer
